import Mathlib

/-!
Verification of the q-status-cli usage-accounting engine.

This file gives a shallow embedding, in Lean 4, of the pure computational
core of the repository:

* `get_token_usage` from `src/q-status-cli/src/data/database.rs`
  (token-usage aggregation, percentage clamping, compaction status);
* the cost calculator from `src/q-status-cli/src/utils/cost_calculator.rs`
  (cost modes, pricing table, model-name normalization and fuzzy matching);
* the session-block builder from `src/q-status-cli/src/utils/session_blocks.rs`
  (time bucketing with synthetic gap blocks);
* the burn-rate update from `src/q-status-cli/src/data/collector.rs`
  (EMA smoothing) and the connectivity-flag transition of the collector loop.

Modelling conventions: Rust `u32`/`u64`/`usize` counters become `Nat`
(no arithmetic in the translated code can overflow `u64` for realistic
inputs, and the translated expressions are the mathematical ones the code
computes); `f64` arithmetic on costs, rates and percentages is modelled by
`ℚ` (exact rational arithmetic; the claims under study concern the
algebraic structure of these computations, not bit-level rounding);
`chrono::DateTime<Utc>` becomes `Int` (seconds since the epoch, which is
the quantity `chrono` durations and hour-flooring are computed from);
fallible parsing becomes `Option`.
-/

namespace QStatus

/-! ## Data model of `database.rs` -/

/-- `CompactionStatus` from `src/data/database.rs`. -/
inductive CompactionStatus where
  | Safe
  | Warning
  | Critical
  | Imminent
deriving DecidableEq, Repr

/-- Numeric severity level of a `CompactionStatus`, used to state that the
classification is a monotone step function of the percentage. -/
def statusLevel : CompactionStatus → Nat
  | .Safe => 0
  | .Warning => 1
  | .Critical => 2
  | .Imminent => 3

/-- A conversation message.  `get_token_usage` only ever looks at the length
of the message's JSON serialization (`serde_json::to_string(message).len()`),
so a message is modelled by that length. -/
structure QMessage where
  serialized_len : Nat
deriving DecidableEq, Repr

/-- The fields of `QConversation` that `get_token_usage` reads:
`context_message_length`, the `history` of message pairs, and
`latest_summary` (only its presence matters). -/
structure QConversation where
  context_message_length : Option Nat
  history : List (List QMessage)
  latest_summary : Option String
deriving DecidableEq, Repr

/-- `TokenUsageDetails` from `src/data/database.rs`. -/
structure TokenUsageDetails where
  history_tokens : Nat
  context_tokens : Nat
  total_tokens : Nat
  context_window : Nat
  percentage : ℚ
  compaction_status : CompactionStatus
  has_summary : Bool
  message_count : Nat
deriving DecidableEq, Repr

/-- Sum of serialized message lengths over the conversation history
(the nested `for` loops accumulating `history_chars` in `get_token_usage`). -/
def historyChars (conv : QConversation) : Nat :=
  conv.history.foldl (fun acc pair => pair.foldl (fun a m => a + m.serialized_len) acc) 0

/-- `history_tokens` in `get_token_usage`: 4:1 character-to-token ratio. -/
def historyTokens (conv : QConversation) : Nat :=
  historyChars conv / 4

/-- `context_tokens` in `get_token_usage`: a raw reported context length above
100000 is replaced by the fixed 20000-token estimate, otherwise used as-is. -/
def contextTokens (conv : QConversation) : Nat :=
  let raw_context_tokens := conv.context_message_length.getD 0
  if raw_context_tokens > 100000 then 20000 else raw_context_tokens

/-- The fixed `context_window` constant (175_000) from `get_token_usage`. -/
def contextWindow : Nat := 175000

/-- The `match percentage` statement at the end of `get_token_usage`
(`p if p < 70.0 => Safe`, `p if p < 90.0 => Warning`,
`p if p < 95.0 => Critical`, `_ => Imminent`). -/
def compaction_status_of (p : ℚ) : CompactionStatus :=
  if p < 70 then .Safe
  else if p < 90 then .Warning
  else if p < 95 then .Critical
  else .Imminent

/-- The percentage clamping in `get_token_usage`: the raw percentage of the
(already capped) total, reported as 100 at or above 100 and clamped to 99.9
strictly between 99.9 and 100. -/
def percentage_of (total_tokens : Nat) : ℚ :=
  let raw_percentage : ℚ := (total_tokens : ℚ) / (contextWindow : ℚ) * 100
  if raw_percentage ≥ 100 then 100
  else if raw_percentage > 999 / 10 then 999 / 10
  else raw_percentage

/-- `QDatabase::get_token_usage` from `src/data/database.rs` (lines 239-299). -/
def get_token_usage (conv : QConversation) : TokenUsageDetails :=
  let history_tokens := historyTokens conv
  let context_tokens := contextTokens conv
  let total_tokens := min (history_tokens + context_tokens) contextWindow
  let percentage : ℚ := percentage_of total_tokens
  { history_tokens := history_tokens
    context_tokens := context_tokens
    total_tokens := total_tokens
    context_window := contextWindow
    percentage := percentage
    compaction_status := compaction_status_of percentage
    has_summary := conv.latest_summary.isSome
    message_count := conv.history.length }

/-! ## Theorems about `get_token_usage` (claims C1, C2, C8) -/

/-- A conversation whose history and context tokens sum to 200000
(history: one 400000-character message pair, context: 100000 tokens). -/
def conv_c1 : QConversation :=
  { context_message_length := some 100000
    history := [[⟨400000⟩]]
    latest_summary := none }

/-- C1: `get_token_usage` always reports a percentage in [0, 100]; the total
is capped at the 175000-token context window before the percentage is
computed; a raw percentage at or above 100 reports exactly 100, a raw
percentage strictly between 99.9 and 100 is clamped to 99.9, and the result
is exactly 100 only when the capped total is at the window.  History plus
context tokens totalling 200000 yield percentage 100 and status Imminent. -/
theorem C1_percentage_clamped (conv : QConversation) :
    0 ≤ (get_token_usage conv).percentage ∧
    (get_token_usage conv).percentage ≤ 100 ∧
    (get_token_usage conv).total_tokens =
      min (historyTokens conv + contextTokens conv) contextWindow ∧
    ((get_token_usage conv).percentage = 100 ↔
      (get_token_usage conv).total_tokens = contextWindow) ∧
    ((999 : ℚ) / 10 < ((get_token_usage conv).total_tokens : ℚ) / (contextWindow : ℚ) * 100 →
      ((get_token_usage conv).total_tokens : ℚ) / (contextWindow : ℚ) * 100 < 100 →
      (get_token_usage conv).percentage = 999 / 10) ∧
    ((100 : ℚ) ≤ ((get_token_usage conv).total_tokens : ℚ) / (contextWindow : ℚ) * 100 →
      (get_token_usage conv).percentage = 100) ∧
    (historyTokens conv + contextTokens conv = 200000 →
      (get_token_usage conv).percentage = 100 ∧
      (get_token_usage conv).compaction_status = CompactionStatus.Imminent) := by
  have htot : (get_token_usage conv).total_tokens =
      min (historyTokens conv + contextTokens conv) contextWindow := rfl
  set t := min (historyTokens conv + contextTokens conv) contextWindow with ht
  have htle : t ≤ contextWindow := min_le_right _ _
  have hperc : (get_token_usage conv).percentage =
      (if ((t : ℚ) / (contextWindow : ℚ) * 100) ≥ 100 then (100 : ℚ)
       else if ((t : ℚ) / (contextWindow : ℚ) * 100) > 999 / 10 then 999 / 10
       else (t : ℚ) / (contextWindow : ℚ) * 100) := rfl
  have hcs : (get_token_usage conv).compaction_status =
      compaction_status_of ((get_token_usage conv).percentage) := rfl
  have hwpos : (0 : ℚ) < (contextWindow : ℚ) := by norm_num [contextWindow]
  have hraw_nonneg : (0 : ℚ) ≤ (t : ℚ) / (contextWindow : ℚ) * 100 := by positivity
  have hraw_le : (t : ℚ) / (contextWindow : ℚ) * 100 ≤ 100 := by
    rw [div_mul_eq_mul_div, div_le_iff₀ hwpos]
    have hc : (t : ℚ) ≤ (contextWindow : ℚ) := by exact_mod_cast htle
    nlinarith
  have hge_iff : ((100 : ℚ) ≤ (t : ℚ) / (contextWindow : ℚ) * 100) ↔ t = contextWindow := by
    rw [div_mul_eq_mul_div, le_div_iff₀ hwpos]
    constructor
    · intro h
      have h2 : (contextWindow : ℚ) ≤ (t : ℚ) := by nlinarith
      have h3 : contextWindow ≤ t := by exact_mod_cast h2
      omega
    · intro h
      rw [h]
      nlinarith
  refine ⟨?_, ?_, htot, ?_, ?_, ?_, ?_⟩
  · rw [hperc]; split_ifs <;> first | exact hraw_nonneg | norm_num
  · rw [hperc]; split_ifs <;> first | exact hraw_le | norm_num
  · rw [htot, hperc]
    split_ifs with h1 h2
    · simp [hge_iff.mp h1]
    · constructor
      · intro habs; norm_num at habs
      · intro habs; exact absurd (hge_iff.mpr habs) h1
    · constructor
      · intro habs
        exact absurd (le_of_eq habs.symm) h1
      · intro habs; exact absurd (hge_iff.mpr habs) h1
  · rw [htot, hperc]
    intro hlo hhi
    rw [if_neg (by exact not_le.mpr hhi), if_pos hlo]
  · rw [htot, hperc]
    intro h100
    rw [if_pos h100]
  · intro hsum
    have hteq : t = contextWindow := by rw [ht, hsum]; rfl
    have hraw100 : (t : ℚ) / (contextWindow : ℚ) * 100 = 100 := by
      rw [hteq]; field_simp
    have hp100 : (get_token_usage conv).percentage = 100 := by
      rw [hperc, if_pos (le_of_eq hraw100.symm)]
    refine ⟨hp100, ?_⟩
    rw [hcs, hp100]
    norm_num [compaction_status_of]

/-- Witness for C1: a concrete conversation with history + context = 200000. -/
theorem C1_percentage_clamped_witness :
    (get_token_usage conv_c1).percentage = 100 ∧
    (get_token_usage conv_c1).compaction_status = CompactionStatus.Imminent :=
  (C1_percentage_clamped conv_c1).2.2.2.2.2.2 (by decide)

/-- A conversation driving `get_token_usage` to a percentage of exactly 95
(665000 history characters give 166250 tokens; 166250 / 175000 × 100 = 95). -/
def conv95 : QConversation :=
  { context_message_length := some 0
    history := [[⟨665000⟩]]
    latest_summary := none }

/-- C2 counterexample: a percentage of exactly 95 is reachable and is
classified `Imminent` by the code, although 95 is not above 95 — the claim
places `Imminent` strictly above 95 (leaving 95 to `Critical`). -/
theorem C2_counterexample :
    (get_token_usage conv95).percentage = 95 ∧
    ¬ ((95 : ℚ) > 95) ∧
    (get_token_usage conv95).compaction_status = CompactionStatus.Imminent := by
  have ht : (get_token_usage conv95).total_tokens = 166250 := rfl
  have hp : (get_token_usage conv95).percentage = percentage_of 166250 := rfl
  have hraw : ((166250 : ℕ) : ℚ) / (contextWindow : ℚ) * 100 = 95 := by
    norm_num [contextWindow]
  have hval : percentage_of 166250 = 95 := by
    unfold percentage_of
    rw [hraw]
    norm_num
  have hcs : (get_token_usage conv95).compaction_status =
      compaction_status_of (percentage_of 166250) := rfl
  refine ⟨hp.trans hval, by norm_num, ?_⟩
  rw [hcs, hval]
  norm_num [compaction_status_of]

/-- C2 (amended): the thresholds partition [0, 100] with no overlap or gap,
with `Imminent` starting at (and including) 95: `< 70` is Safe, `[70, 90)` is
Warning, `[90, 95)` is Critical, and `≥ 95` is Imminent; the classification
is a monotone step function of the percentage. -/
theorem C2_thresholds_partition :
    (∀ p : ℚ, 0 ≤ p → p ≤ 100 →
      ((compaction_status_of p = CompactionStatus.Safe ↔ p < 70) ∧
       (compaction_status_of p = CompactionStatus.Warning ↔ 70 ≤ p ∧ p < 90) ∧
       (compaction_status_of p = CompactionStatus.Critical ↔ 90 ≤ p ∧ p < 95) ∧
       (compaction_status_of p = CompactionStatus.Imminent ↔ 95 ≤ p))) ∧
    (∀ p q : ℚ, p ≤ q →
      statusLevel (compaction_status_of p) ≤ statusLevel (compaction_status_of q)) := by
  constructor
  · intro p hp0 hp100
    unfold compaction_status_of
    split_ifs with h1 h2 h3 <;>
      refine ⟨?_, ?_, ?_, ?_⟩ <;> constructor <;> intro h <;>
      first
        | rfl
        | linarith
        | (exact absurd h (by decide))
        | (exact ⟨by linarith, by linarith⟩)
  · intro p q hpq
    unfold compaction_status_of
    split_ifs <;> simp [statusLevel] <;> linarith

/-- Witness for C2 (amended): concrete classifications at 80, 50 and 96. -/
theorem C2_thresholds_partition_witness :
    (compaction_status_of 80 = CompactionStatus.Warning ↔ 70 ≤ (80 : ℚ) ∧ (80 : ℚ) < 90) ∧
    statusLevel (compaction_status_of 50) ≤ statusLevel (compaction_status_of 96) :=
  ⟨(C2_thresholds_partition.1 80 (by norm_num) (by norm_num)).2.1,
   C2_thresholds_partition.2 50 96 (by norm_num)⟩

/-- C8: a raw reported context length above 100000 is replaced by the fixed
20000-token estimate; a raw value of 100000 or less is used unchanged. -/
theorem C8_context_heuristic (conv : QConversation) :
    (conv.context_message_length.getD 0 > 100000 →
      (get_token_usage conv).context_tokens = 20000) ∧
    (conv.context_message_length.getD 0 ≤ 100000 →
      (get_token_usage conv).context_tokens = conv.context_message_length.getD 0) := by
  have h : (get_token_usage conv).context_tokens = contextTokens conv := rfl
  rw [h]
  unfold contextTokens
  constructor
  · intro hgt
    simp only [if_pos hgt]
  · intro hle
    rw [if_neg (by omega)]

/-- Conversation with an implausibly large reported context length. -/
def conv_c8_high : QConversation :=
  { context_message_length := some 150000, history := [], latest_summary := none }

/-- Conversation with a plausible reported context length. -/
def conv_c8_low : QConversation :=
  { context_message_length := some 90000, history := [], latest_summary := none }

/-- Witness for C8: the heuristic at raw context lengths 150000 and 90000. -/
theorem C8_context_heuristic_witness :
    (get_token_usage conv_c8_high).context_tokens = 20000 ∧
    (get_token_usage conv_c8_low).context_tokens = 90000 :=
  ⟨(C8_context_heuristic conv_c8_high).1 (by decide),
   (C8_context_heuristic conv_c8_low).2 (by decide)⟩

/-! ## Cost calculator (`src/utils/cost_calculator.rs`) -/

/-- `CostMode` from `cost_calculator.rs`. -/
inductive CostMode where
  | Auto
  | Calculate
  | Display
deriving DecidableEq, Repr

/-- `ModelPricing` from `cost_calculator.rs`; per-token USD rates as `ℚ`. -/
structure ModelPricing where
  input_cost_per_token : Option ℚ
  output_cost_per_token : Option ℚ
  cache_creation_cost_per_token : Option ℚ
  cache_read_cost_per_token : Option ℚ
  max_tokens : Option Nat
  max_input_tokens : Option Nat
  max_output_tokens : Option Nat
deriving DecidableEq, Repr

/-- `ModelPricing::from_million_tokens`: cache-creation rate defaults to
1.25 × input rate, cache-read to 0.10 × input rate. -/
def ModelPricing.from_million_tokens (input_cost_per_million output_cost_per_million : ℚ)
    (cache_creation_multiplier cache_read_multiplier : Option ℚ)
    (max_tokens : Option Nat) : ModelPricing :=
  let input_per_token := input_cost_per_million / 1000000
  let ccm := cache_creation_multiplier.getD (125 / 100)
  let crm := cache_read_multiplier.getD (10 / 100)
  { input_cost_per_token := some input_per_token
    output_cost_per_token := some (output_cost_per_million / 1000000)
    cache_creation_cost_per_token := some (input_per_token * ccm)
    cache_read_cost_per_token := some (input_per_token * crm)
    max_tokens := max_tokens
    max_input_tokens := none
    max_output_tokens := none }

/-- `TokenUsage` from `cost_calculator.rs` (Claude JSONL shape). -/
structure TokenUsage where
  input_tokens : Nat
  output_tokens : Nat
  cache_creation_input_tokens : Option Nat
  cache_read_input_tokens : Option Nat
deriving DecidableEq, Repr

/-- The pricing table built in `CostCalculator::new` (a `HashMap` with these
distinct keys, modelled as an association list). -/
def pricing_data : List (String × ModelPricing) :=
  [("claude-3-5-sonnet", .from_million_tokens 3 15 none none (some 200000)),
   ("claude-3-5-sonnet-20241022", .from_million_tokens 3 15 none none (some 200000)),
   ("claude-3-5-sonnet-latest", .from_million_tokens 3 15 none none (some 200000)),
   ("claude-3-opus", .from_million_tokens 15 75 none none (some 200000)),
   ("claude-3-opus-20240229", .from_million_tokens 15 75 none none (some 200000)),
   ("claude-3-opus-latest", .from_million_tokens 15 75 none none (some 200000)),
   ("claude-3-haiku", .from_million_tokens (25/100) (125/100) none none (some 200000)),
   ("claude-3-haiku-20240307", .from_million_tokens (25/100) (125/100) none none (some 200000)),
   ("claude-3-haiku-latest", .from_million_tokens (25/100) (125/100) none none (some 200000)),
   ("claude-3-5-haiku", .from_million_tokens 1 5 none none (some 200000)),
   ("claude-3-5-haiku-20241022", .from_million_tokens 1 5 none none (some 200000)),
   ("claude-2.1", .from_million_tokens 8 24 none none (some 200000)),
   ("claude-2.0", .from_million_tokens 8 24 none none (some 100000)),
   ("claude-instant-1.2", .from_million_tokens (8/10) (24/10) none none (some 100000))]

/-- The `default_model` field set in `CostCalculator::new`. -/
def default_model : String := "claude-3-5-sonnet-20241022"

/-- One pass of Rust `str::replace` with fuel; fuel `s.length` suffices since
every step consumes at least one character (the patterns used here are
non-empty). -/
def replaceGo (pat rep : List Char) : Nat → List Char → List Char
  | _, [] => []
  | 0, s => s
  | fuel + 1, c :: rest =>
    if pat.isPrefixOf (c :: rest) then
      rep ++ replaceGo pat rep fuel (rest.drop (pat.length - 1))
    else
      c :: replaceGo pat rep fuel rest

/-- Rust `str::replace(pat, rep)`: replace all non-overlapping occurrences,
left to right. -/
def strReplace (s pat rep : String) : String :=
  ⟨replaceGo pat.data rep.data s.data.length s.data⟩

/-- Rust `str::starts_with(tag)` followed by slicing the tag off
(on character lists). -/
def stripTag (tag s : String) : String :=
  if List.isPrefixOf tag.data s.data then ⟨s.data.drop tag.data.length⟩ else s

/-- Rust `str::contains(pat)` on character lists (substring test). -/
def containsSub (pat : List Char) : List Char → Bool
  | [] => pat.isEmpty
  | c :: rest => pat.isPrefixOf (c :: rest) || containsSub pat rest

/-- Rust `str::contains(pat)`. -/
def strContains (s pat : String) : Bool :=
  containsSub pat.data s.data

/-- `CostCalculator::normalize_model_name`: lower-case, strip the four
provider tags in order, then collapse version-separator variants. -/
def normalize_model_name (model : String) : String :=
  let n : String := ⟨model.data.map Char.toLower⟩
  let n := stripTag "anthropic/" n
  let n := stripTag "claude/" n
  let n := stripTag "bedrock/" n
  let n := stripTag "vertex/" n
  let n := strReplace n "claude-3.5-" "claude-3-5-"
  let n := strReplace n "claude3.5" "claude-3-5"
  let n := strReplace n "claude3-" "claude-3-"
  n

/-- `CostCalculator::fuzzy_match_model`: family matching by substring. -/
def fuzzy_match_model (model : String) : Option ModelPricing :=
  if strContains model "opus" then
    List.lookup "claude-3-opus" pricing_data
  else if strContains model "sonnet" then
    if strContains model "3-5" || strContains model "3.5" then
      List.lookup "claude-3-5-sonnet" pricing_data
    else
      List.lookup "claude-3-5-sonnet" pricing_data
  else if strContains model "haiku" then
    if strContains model "3-5" || strContains model "3.5" then
      List.lookup "claude-3-5-haiku" pricing_data
    else
      List.lookup "claude-3-haiku" pricing_data
  else if strContains model "instant" then
    List.lookup "claude-instant-1.2" pricing_data
  else if strContains model "claude-2" then
    List.lookup "claude-2.1" pricing_data
  else
    none

/-- `CostCalculator::get_pricing`: exact match after normalization, then
fuzzy matching, then the default model's pricing (with the literal fallback
record the Rust `unwrap_or` carries). -/
def get_pricing (model : String) : ModelPricing :=
  let normalized := normalize_model_name model
  match List.lookup normalized pricing_data with
  | some pricing => pricing
  | none =>
    match fuzzy_match_model normalized with
    | some pricing => pricing
    | none =>
      (List.lookup default_model pricing_data).getD
        { input_cost_per_token := some (3 / 1000000)
          output_cost_per_token := some (15 / 1000000)
          cache_creation_cost_per_token := some (375 / 100000000)
          cache_read_cost_per_token := some (3 / 10000000)
          max_tokens := some 200000
          max_input_tokens := none
          max_output_tokens := none }

/-- `CostCalculator::calculate_cost_from_pricing`: accumulate each token
category's contribution when its rate (and, for cache categories, its count)
is present. -/
def calculate_cost_from_pricing (tokens : TokenUsage) (pricing : ModelPricing) : ℚ :=
  let cost : ℚ := 0
  let cost := match pricing.input_cost_per_token with
    | some input_cost => cost + (tokens.input_tokens : ℚ) * input_cost
    | none => cost
  let cost := match pricing.output_cost_per_token with
    | some output_cost => cost + (tokens.output_tokens : ℚ) * output_cost
    | none => cost
  let cost := match tokens.cache_creation_input_tokens, pricing.cache_creation_cost_per_token with
    | some cache_creation_tokens, some cache_creation_cost =>
      cost + (cache_creation_tokens : ℚ) * cache_creation_cost
    | _, _ => cost
  let cost := match tokens.cache_read_input_tokens, pricing.cache_read_cost_per_token with
    | some cache_read_tokens, some cache_read_cost =>
      cost + (cache_read_tokens : ℚ) * cache_read_cost
    | _, _ => cost
  cost

/-- `CostCalculator::calculate_from_tokens`. -/
def calculate_from_tokens (tokens : TokenUsage) (model : String) : ℚ :=
  calculate_cost_from_pricing tokens (get_pricing model)

/-- `CostCalculator::calculate_cost`: mode dispatch over
`Display` / `Calculate` / `Auto`. -/
def calculate_cost (tokens : TokenUsage) (model : String) (mode : CostMode)
    (existing_cost : Option ℚ) : ℚ :=
  match mode with
  | .Display => existing_cost.getD 0
  | .Calculate => calculate_from_tokens tokens model
  | .Auto =>
    match existing_cost with
    | some cost => if cost > 0 then cost else calculate_from_tokens tokens model
    | none => calculate_from_tokens tokens model

/-! ## Theorems about the cost calculator (claims C3, C4) -/

/-- The accumulation in `calculate_cost_from_pricing` equals the sum, over
the four token categories, of count × rate, an absent rate (or absent cache
count) contributing zero. -/
lemma calculate_cost_from_pricing_eq (tokens : TokenUsage) (pricing : ModelPricing) :
    calculate_cost_from_pricing tokens pricing =
      (tokens.input_tokens : ℚ) * pricing.input_cost_per_token.getD 0 +
      (tokens.output_tokens : ℚ) * pricing.output_cost_per_token.getD 0 +
      (tokens.cache_creation_input_tokens.getD 0 : ℚ) *
        pricing.cache_creation_cost_per_token.getD 0 +
      (tokens.cache_read_input_tokens.getD 0 : ℚ) *
        pricing.cache_read_cost_per_token.getD 0 := by
  rcases tokens with ⟨itk, otk, cct, crt⟩
  rcases pricing with ⟨ic, oc, cc, cr, mt, mi, mo⟩
  rcases ic with _ | ic <;> rcases oc with _ | oc <;> rcases cc with _ | cc <;>
    rcases cr with _ | cr <;> rcases cct with _ | cct <;> rcases crt with _ | crt <;>
      simp [calculate_cost_from_pricing]

/-- C3: mode semantics of `calculate_cost`.  `Display` returns the declared
cost (0 when absent) regardless of tokens and model; `Calculate` returns the
per-category sum of count × rate, an absent rate contributing zero, ignoring
any declared cost; `Auto` returns a declared cost only when it is strictly
positive and otherwise equals the `Calculate` result. -/
theorem C3_cost_modes (tokens : TokenUsage) (model : String) (existing_cost : Option ℚ) :
    calculate_cost tokens model .Display existing_cost = existing_cost.getD 0 ∧
    calculate_cost tokens model .Calculate existing_cost =
      (tokens.input_tokens : ℚ) * ((get_pricing model).input_cost_per_token.getD 0) +
      (tokens.output_tokens : ℚ) * ((get_pricing model).output_cost_per_token.getD 0) +
      (tokens.cache_creation_input_tokens.getD 0 : ℚ) *
        ((get_pricing model).cache_creation_cost_per_token.getD 0) +
      (tokens.cache_read_input_tokens.getD 0 : ℚ) *
        ((get_pricing model).cache_read_cost_per_token.getD 0) ∧
    (∀ c : ℚ, existing_cost = some c → 0 < c →
      calculate_cost tokens model .Auto existing_cost = c) ∧
    ((∀ c : ℚ, existing_cost = some c → c ≤ 0) →
      calculate_cost tokens model .Auto existing_cost =
        calculate_cost tokens model .Calculate existing_cost) := by
  refine ⟨rfl, calculate_cost_from_pricing_eq tokens (get_pricing model), ?_, ?_⟩
  · rintro c rfl hc
    simp only [calculate_cost]
    rw [if_pos hc]
  · intro hnp
    cases existing_cost with
    | none => rfl
    | some c =>
      simp only [calculate_cost]
      rw [if_neg (not_lt.mpr (hnp c rfl))]

/-- Concrete token usage for exercising the cost modes. -/
def tokens_c3 : TokenUsage := ⟨1000, 500, some 100, some 200⟩

/-- Witness for C3: `Auto` prefers a positive declared cost and falls back to
the `Calculate` result when no declared cost exists. -/
theorem C3_cost_modes_witness :
    calculate_cost tokens_c3 "claude-3-5-sonnet" .Auto (some (123 / 1000)) = 123 / 1000 ∧
    calculate_cost tokens_c3 "claude-3-5-sonnet" .Auto none =
      calculate_cost tokens_c3 "claude-3-5-sonnet" .Calculate none :=
  ⟨(C3_cost_modes tokens_c3 "claude-3-5-sonnet" (some (123 / 1000))).2.2.1
      (123 / 1000) rfl (by norm_num),
   (C3_cost_modes tokens_c3 "claude-3-5-sonnet" none).2.2.2
      (fun _ h => Option.noConfusion h)⟩

/-- C4 counterexample: the normalized name "opus-sonnet" contains "sonnet"
but resolves to the Opus tier (whose rates differ from the 3.5 Sonnet tier),
because the family matching tests "opus" first. -/
theorem C4_counterexample :
    strContains (normalize_model_name "opus-sonnet") "sonnet" = true ∧
    get_pricing "opus-sonnet" = ModelPricing.from_million_tokens 15 75 none none (some 200000) ∧
    get_pricing "opus-sonnet" ≠ ModelPricing.from_million_tokens 3 15 none none (some 200000) := by
  have hopus : get_pricing "opus-sonnet" =
      ModelPricing.from_million_tokens 15 75 none none (some 200000) := rfl
  refine ⟨by decide, hopus, fun h => ?_⟩
  have h2 := hopus.symm.trans h
  have h3 := congrArg ModelPricing.input_cost_per_token h2
  simp only [ModelPricing.from_million_tokens, Option.some_inj] at h3
  norm_num at h3

/-- C4 (amended): model-name pricing resolution is total and deterministic:
after normalization it tries an exact table match; failing that, a name
containing "opus" resolves to the Opus tier, a name containing "sonnet" (and
not "opus", since "opus" is tested first) resolves to the 3.5 Sonnet tier,
and a name matching no family falls back to the default model's pricing
(the 3.5 Sonnet tier). -/
theorem C4_pricing_resolution (model : String) :
    (∀ p : ModelPricing,
      List.lookup (normalize_model_name model) pricing_data = some p →
      get_pricing model = p) ∧
    (List.lookup (normalize_model_name model) pricing_data = none →
      strContains (normalize_model_name model) "opus" = true →
      get_pricing model = ModelPricing.from_million_tokens 15 75 none none (some 200000)) ∧
    (List.lookup (normalize_model_name model) pricing_data = none →
      strContains (normalize_model_name model) "opus" = false →
      strContains (normalize_model_name model) "sonnet" = true →
      get_pricing model = ModelPricing.from_million_tokens 3 15 none none (some 200000)) ∧
    (List.lookup (normalize_model_name model) pricing_data = none →
      fuzzy_match_model (normalize_model_name model) = none →
      get_pricing model = ModelPricing.from_million_tokens 3 15 none none (some 200000)) := by
  refine ⟨?_, ?_, ?_, ?_⟩
  · intro p hp
    unfold get_pricing
    simp only [hp]
  · intro hnone hopus
    unfold get_pricing fuzzy_match_model
    simp only [hnone, hopus, if_true]
    rw [show List.lookup "claude-3-opus" pricing_data =
        some (ModelPricing.from_million_tokens 15 75 none none (some 200000)) from rfl]
  · intro hnone hnopus hsonnet
    unfold get_pricing fuzzy_match_model
    simp only [hnone, hnopus, hsonnet, Bool.false_eq_true, if_false, if_true, ite_self]
    rw [show List.lookup "claude-3-5-sonnet" pricing_data =
        some (ModelPricing.from_million_tokens 3 15 none none (some 200000)) from rfl]
  · intro hnone hfuzz
    unfold get_pricing
    simp only [hnone, hfuzz]
    rfl

/-- Witness for C4: "opus" misses the exact table and resolves by family. -/
theorem C4_pricing_resolution_witness :
    get_pricing "opus" = ModelPricing.from_million_tokens 15 75 none none (some 200000) :=
  (C4_pricing_resolution "opus").2.1 (by decide) (by decide)

/-! ## Session blocks (`src/utils/session_blocks.rs`) -/

/-- `DEFAULT_SESSION_DURATION_HOURS` from `session_blocks.rs`. -/
def DEFAULT_SESSION_DURATION_HOURS : Int := 5

/-- `ClaudeTokenUsage` from `session_blocks.rs`. -/
structure ClaudeTokenUsage where
  input_tokens : Nat
  output_tokens : Nat
  cache_creation_input_tokens : Option Nat
  cache_read_input_tokens : Option Nat
deriving DecidableEq, Repr

/-- `ClaudeMessage` from `session_blocks.rs`. -/
structure ClaudeMessage where
  usage : ClaudeTokenUsage
  model : Option String
  id : Option String
deriving DecidableEq, Repr

/-- `ClaudeUsageEntry` from `session_blocks.rs`.  The `timestamp` field
models the result of `DateTime::parse_from_rfc3339` on the entry's timestamp
string: `some t` (epoch seconds, UTC) when it parses, `none` otherwise. -/
structure ClaudeUsageEntry where
  timestamp : Option Int
  session_id : Option String
  message : ClaudeMessage
  cost_usd : Option ℚ
  request_id : Option String
  cwd : Option String
  version : Option String
  is_api_error_message : Option Bool
deriving DecidableEq, Repr

/-- `ClaudeUsageEntry::date`. -/
def ClaudeUsageEntry.date (e : ClaudeUsageEntry) : Option Int :=
  e.timestamp

/-- `TokenCounts` from `session_blocks.rs`. -/
structure TokenCounts where
  input_tokens : Nat
  output_tokens : Nat
  cache_creation_input_tokens : Nat
  cache_read_input_tokens : Nat
deriving DecidableEq, Repr

/-- `TokenCounts::total_tokens`. -/
def TokenCounts.total_tokens (tc : TokenCounts) : Nat :=
  tc.input_tokens + tc.output_tokens + tc.cache_creation_input_tokens +
    tc.cache_read_input_tokens

/-- Block identifier; models the RFC3339-derived id strings of
`session_blocks.rs` (gap blocks carry a distinguishing "gap-" marker). -/
inductive BlockId where
  | real (startTime : Int)
  | gap (startTime : Int)
deriving DecidableEq, Repr

/-- `SessionBlock` from `session_blocks.rs`; the `HashSet<String>` of model
names becomes a `Finset String`. -/
structure SessionBlock where
  id : BlockId
  start_time : Int
  end_time : Int
  actual_end_time : Option Int
  is_active : Bool
  is_gap : Bool
  entries : List ClaudeUsageEntry
  token_counts : TokenCounts
  cost_usd : ℚ
  models : Finset String
deriving DecidableEq

/-- `floor_to_hour` from `session_blocks.rs`: reconstructing the timestamp
from its UTC calendar fields with minutes and seconds zeroed equals flooring
the epoch-second count to a multiple of 3600. -/
def floor_to_hour (t : Int) : Int :=
  t - t % 3600

/-- One step of the token-count accumulation loop in `create_block`. -/
def addEntryCounts (tc : TokenCounts) (e : ClaudeUsageEntry) : TokenCounts :=
  { input_tokens := tc.input_tokens + e.message.usage.input_tokens
    output_tokens := tc.output_tokens + e.message.usage.output_tokens
    cache_creation_input_tokens :=
      tc.cache_creation_input_tokens + e.message.usage.cache_creation_input_tokens.getD 0
    cache_read_input_tokens :=
      tc.cache_read_input_tokens + e.message.usage.cache_read_input_tokens.getD 0 }

/-- One step of the cost accumulation loop in `create_block`. -/
def addEntryCost (c : ℚ) (e : ClaudeUsageEntry) : ℚ :=
  c + e.cost_usd.getD 0

/-- One step of the model-set accumulation loop in `create_block`. -/
def addEntryModel (s : Finset String) (e : ClaudeUsageEntry) : Finset String :=
  match e.message.model with
  | some m => insert m s
  | none => s

/-- `create_block` from `session_blocks.rs` (lines 195-245).  The single
Rust loop updates three independent accumulators (token counts, cost, model
set); it is rendered as three folds over the same entry list. -/
def create_block (start_time : Int) (entries : List ClaudeUsageEntry) (now : Int)
    (session_duration : Int) : SessionBlock :=
  let end_time := start_time + session_duration
  let actual_end_time := (entries.getLast?.bind ClaudeUsageEntry.date).getD start_time
  let is_active := decide (now - actual_end_time < session_duration) && decide (now < end_time)
  { id := .real start_time
    start_time := start_time
    end_time := end_time
    actual_end_time := some actual_end_time
    is_active := is_active
    is_gap := false
    entries := entries
    token_counts := entries.foldl addEntryCounts ⟨0, 0, 0, 0⟩
    cost_usd := entries.foldl addEntryCost 0
    models := entries.foldl addEntryModel ∅ }

/-- `create_gap_block` from `session_blocks.rs` (lines 248-274). -/
def create_gap_block (last_activity_time next_activity_time : Int)
    (session_duration : Int) : Option SessionBlock :=
  let gap_duration := next_activity_time - last_activity_time
  if gap_duration ≤ session_duration then
    none
  else
    let gap_start := last_activity_time + session_duration
    let gap_end := next_activity_time
    some
      { id := .gap gap_start
        start_time := gap_start
        end_time := gap_end
        actual_end_time := none
        is_active := false
        is_gap := true
        entries := []
        token_counts := ⟨0, 0, 0, 0⟩
        cost_usd := 0
        models := ∅ }

/-- The sort key of `sorted_entries.sort_by_key(|(d, _)| *d)`. -/
def keyLe (a b : Int × ClaudeUsageEntry) : Prop :=
  a.1 ≤ b.1

instance : DecidableRel keyLe := fun a b => Int.decLe a.1 b.1

instance : IsTotal (Int × ClaudeUsageEntry) keyLe :=
  ⟨fun a b => le_total a.1 b.1⟩

instance : IsTrans (Int × ClaudeUsageEntry) keyLe :=
  ⟨fun _ _ _ hab hbc => le_trans hab hbc⟩

/-- The filter-and-sort prelude of `identify_session_blocks`: keep entries
whose timestamp parses, paired with the parsed timestamp, and stable-sort by
timestamp (Rust's `sort_by_key` is stable; stable insertion sort is used
here). -/
def sorted_pairs (entries : List ClaudeUsageEntry) : List (Int × ClaudeUsageEntry) :=
  List.insertionSort keyLe
    (entries.filterMap (fun e => e.date.map (fun d => (d, e))))

/-- The main loop of `identify_session_blocks` (lines 132-189): walk the
sorted entries carrying the current block start (`none` before the first
entry), the current block's entries, and the emitted blocks; close the
current block when the elapsed time since block start or since the previous
entry exceeds the session duration, inserting a gap block for long gaps; the
trailing partial block is closed at the end. -/
def identifyGo (now session_duration : Int) :
    List (Int × ClaudeUsageEntry) → Option Int → List ClaudeUsageEntry →
    List SessionBlock → List SessionBlock
  | [], ostart, acc, blocks =>
    match ostart with
    | some start =>
      if acc.isEmpty then blocks
      else blocks ++ [create_block start acc now session_duration]
    | none => blocks
  | (t, e) :: rest, none, _, blocks =>
    identifyGo now session_duration rest (some (floor_to_hour t)) [e] blocks
  | (t, e) :: rest, some start, acc, blocks =>
    match acc.getLast? with
    | none => identifyGo now session_duration rest (some start) acc blocks
    | some last =>
      match last.date with
      | none => identifyGo now session_duration rest (some start) acc blocks
      | some last_entry_time =>
        if t - start > session_duration ∨ t - last_entry_time > session_duration then
          let closed := blocks ++ [create_block start acc now session_duration]
          let withGap :=
            if t - last_entry_time > session_duration then
              match create_gap_block last_entry_time t session_duration with
              | some gapBlock => closed ++ [gapBlock]
              | none => closed
            else closed
          identifyGo now session_duration rest (some (floor_to_hour t)) [e] withGap
        else
          identifyGo now session_duration rest (some start) (acc ++ [e]) blocks

/-- `identify_session_blocks` from `session_blocks.rs` (lines 113-192).
`now` (`Utc::now()` in the Rust) is passed explicitly. -/
def identify_session_blocks (entries : List ClaudeUsageEntry)
    (session_duration_hours : Option Int) (now : Int) : List SessionBlock :=
  if entries.isEmpty then []
  else
    let hrs := session_duration_hours.getD DEFAULT_SESSION_DURATION_HOURS
    let session_duration := hrs * 3600
    identifyGo now session_duration (sorted_pairs entries) none [] []

/-! ## Theorems about the session-block builder (claims C5, C6) -/

/-- The gap block `create_gap_block` emits for a qualifying gap: it spans
`[last_activity_time + session_duration, next_activity_time)` and carries no
entries, zero token counts and zero cost. -/
def gap_block_of (last_activity_time next_activity_time session_duration : Int) : SessionBlock :=
  { id := .gap (last_activity_time + session_duration)
    start_time := last_activity_time + session_duration
    end_time := next_activity_time
    actual_end_time := none
    is_active := false
    is_gap := true
    entries := []
    token_counts := ⟨0, 0, 0, 0⟩
    cost_usd := 0
    models := ∅ }

lemma create_gap_block_pos (last next dur : Int) (hgap : next - last > dur) :
    create_gap_block last next dur = some (gap_block_of last next dur) := by
  unfold create_gap_block gap_block_of
  rw [if_neg (not_le.mpr hgap)]

/-- `chainOk start dur prev rest`: every (parsed) record in `rest` lies
within `dur` of the block start and of its predecessor, the first
predecessor timestamp being `prev`. -/
def chainOk (start dur : Int) : Int → List (Int × ClaudeUsageEntry) → Prop
  | _, [] => True
  | prev, (t, e) :: rest =>
    t - start ≤ dur ∧ t - prev ≤ dur ∧ e.timestamp = some t ∧ chainOk start dur t rest

instance chainOkDecidable (start dur : Int) :
    ∀ (prev : Int) (l : List (Int × ClaudeUsageEntry)), Decidable (chainOk start dur prev l)
  | _, [] => .isTrue trivial
  | prev, (t, e) :: rest =>
    have : Decidable (chainOk start dur t rest) := chainOkDecidable start dur t rest
    by unfold chainOk; exact inferInstance

/-- While every incoming record stays within `dur` of the block start and of
its predecessor, the loop keeps appending to the current block and finally
closes it once. -/
lemma identifyGo_no_close (now dur : Int) :
    ∀ (rest : List (Int × ClaudeUsageEntry)) (acc : List ClaudeUsageEntry)
      (blocks : List SessionBlock) (start prevT : Int) (last : ClaudeUsageEntry),
      acc.getLast? = some last → last.date = some prevT → chainOk start dur prevT rest →
      identifyGo now dur rest (some start) acc blocks =
        blocks ++ [create_block start (acc ++ rest.map Prod.snd) now dur] := by
  intro rest
  induction rest with
  | nil =>
    intro acc blocks start prevT last hlast hdate _
    have hne : ¬ acc.isEmpty = true := by
      cases acc
      · simp at hlast
      · simp
    simp [identifyGo, hne]
  | cons p rest ih =>
    obtain ⟨t, e⟩ := p
    intro acc blocks start prevT last hlast hdate hchain
    obtain ⟨hs, hp, he, hrest⟩ := hchain
    simp only [identifyGo, hlast, hdate]
    rw [if_neg (not_or.mpr ⟨not_lt.mpr hs, not_lt.mpr hp⟩)]
    have hstep := ih (acc ++ [e]) blocks start t e (by simp) he hrest
    rw [hstep]
    simp

/-- C5: when the elapsed time between two consecutive records exceeds the
block duration, the builder closes the current block and emits exactly one
synthetic gap block spanning [previous record time + duration, next record
time), with zero entries, zero token counts and zero cost, before the next
real block; for a two-record stream this makes the output exactly
[real, gap, real]. -/
theorem C5_gap_blocks (e1 e2 : ClaudeUsageEntry) (t1 t2 h now : Int)
    (h1 : e1.timestamp = some t1) (h2 : e2.timestamp = some t2)
    (hle : t1 ≤ t2) (hgap : t2 - t1 > h * 3600) :
    (∀ (t : Int) (e : ClaudeUsageEntry) (rest : List (Int × ClaudeUsageEntry))
       (start last_time : Int) (acc : List ClaudeUsageEntry) (blocks : List SessionBlock)
       (last : ClaudeUsageEntry),
      acc.getLast? = some last → last.date = some last_time → t - last_time > h * 3600 →
      identifyGo now (h * 3600) ((t, e) :: rest) (some start) acc blocks =
        identifyGo now (h * 3600) rest (some (floor_to_hour t)) [e]
          (blocks ++ [create_block start acc now (h * 3600),
                      gap_block_of last_time t (h * 3600)])) ∧
    identify_session_blocks [e1, e2] (some h) now =
      [create_block (floor_to_hour t1) [e1] now (h * 3600),
       gap_block_of t1 t2 (h * 3600),
       create_block (floor_to_hour t2) [e2] now (h * 3600)] ∧
    (gap_block_of t1 t2 (h * 3600)).is_gap = true ∧
    (gap_block_of t1 t2 (h * 3600)).start_time = t1 + h * 3600 ∧
    (gap_block_of t1 t2 (h * 3600)).end_time = t2 ∧
    (gap_block_of t1 t2 (h * 3600)).entries = [] ∧
    (gap_block_of t1 t2 (h * 3600)).token_counts.total_tokens = 0 ∧
    (gap_block_of t1 t2 (h * 3600)).cost_usd = 0 ∧
    (create_block (floor_to_hour t1) [e1] now (h * 3600)).is_gap = false ∧
    (create_block (floor_to_hour t2) [e2] now (h * 3600)).is_gap = false := by
  have hstep : ∀ (t : Int) (e : ClaudeUsageEntry) (rest : List (Int × ClaudeUsageEntry))
      (start last_time : Int) (acc : List ClaudeUsageEntry) (blocks : List SessionBlock)
      (last : ClaudeUsageEntry),
      acc.getLast? = some last → last.date = some last_time → t - last_time > h * 3600 →
      identifyGo now (h * 3600) ((t, e) :: rest) (some start) acc blocks =
        identifyGo now (h * 3600) rest (some (floor_to_hour t)) [e]
          (blocks ++ [create_block start acc now (h * 3600),
                      gap_block_of last_time t (h * 3600)]) := by
    intro t e rest start last_time acc blocks last hlast hdate hbig
    simp only [identifyGo, hlast, hdate]
    rw [if_pos (Or.inr hbig), if_pos hbig, create_gap_block_pos _ _ _ hbig]
    simp
  refine ⟨hstep, ?_, rfl, rfl, rfl, rfl, rfl, rfl, rfl, rfl⟩
  have hsp : sorted_pairs [e1, e2] = [(t1, e1), (t2, e2)] := by
    simp [sorted_pairs, ClaudeUsageEntry.date, h1, h2, keyLe, hle]
  have hgo1 : identify_session_blocks [e1, e2] (some h) now =
      identifyGo now (h * 3600) [(t1, e1), (t2, e2)] none [] [] := by
    simp [identify_session_blocks, hsp]
  rw [hgo1]
  rw [show identifyGo now (h * 3600) [(t1, e1), (t2, e2)] none [] [] =
      identifyGo now (h * 3600) [(t2, e2)] (some (floor_to_hour t1)) [e1] [] from rfl]
  rw [hstep t2 e2 [] (floor_to_hour t1) t1 [e1] [] e1 rfl h1 hgap]
  simp [identifyGo]

/-- The token-count accumulation in `create_block` computes per-category
sums. -/
lemma foldl_addEntryCounts (entries : List ClaudeUsageEntry) (init : TokenCounts) :
    entries.foldl addEntryCounts init =
      ⟨init.input_tokens + (entries.map fun e => e.message.usage.input_tokens).sum,
       init.output_tokens + (entries.map fun e => e.message.usage.output_tokens).sum,
       init.cache_creation_input_tokens +
         (entries.map fun e => e.message.usage.cache_creation_input_tokens.getD 0).sum,
       init.cache_read_input_tokens +
         (entries.map fun e => e.message.usage.cache_read_input_tokens.getD 0).sum⟩ := by
  induction entries generalizing init with
  | nil => cases init; simp
  | cons e es ih =>
    rw [List.foldl_cons, ih]
    cases init
    simp only [addEntryCounts, List.map_cons, List.sum_cons, TokenCounts.mk.injEq]
    refine ⟨?_, ?_, ?_, ?_⟩ <;> omega

lemma create_block_counts (start now dur : Int) (entries : List ClaudeUsageEntry) :
    (create_block start entries now dur).token_counts =
      ⟨(entries.map fun e => e.message.usage.input_tokens).sum,
       (entries.map fun e => e.message.usage.output_tokens).sum,
       (entries.map fun e => e.message.usage.cache_creation_input_tokens.getD 0).sum,
       (entries.map fun e => e.message.usage.cache_read_input_tokens.getD 0).sum⟩ := by
  show entries.foldl addEntryCounts ⟨0, 0, 0, 0⟩ = _
  rw [foldl_addEntryCounts]
  simp

/-- C6: empty input yields an empty block list; a record set in which every
record lies within one block duration of the block start (the first record's
timestamp floored to the hour) and of its predecessor yields exactly one
block, whose start time is that floored timestamp and whose token counts
are the per-category sums over its entries. -/
theorem C6_single_block :
    (∀ (h : Option Int) (now : Int), identify_session_blocks [] h now = []) ∧
    (∀ (entries : List ClaudeUsageEntry) (h : Option Int) (now t0 : Int)
       (e0 : ClaudeUsageEntry) (rest : List (Int × ClaudeUsageEntry)),
      sorted_pairs entries = (t0, e0) :: rest →
      e0.timestamp = some t0 →
      chainOk (floor_to_hour t0) (h.getD DEFAULT_SESSION_DURATION_HOURS * 3600) t0 rest →
      identify_session_blocks entries h now =
        [create_block (floor_to_hour t0) (e0 :: rest.map Prod.snd) now
          (h.getD DEFAULT_SESSION_DURATION_HOURS * 3600)] ∧
      (create_block (floor_to_hour t0) (e0 :: rest.map Prod.snd) now
          (h.getD DEFAULT_SESSION_DURATION_HOURS * 3600)).start_time = floor_to_hour t0 ∧
      (create_block (floor_to_hour t0) (e0 :: rest.map Prod.snd) now
          (h.getD DEFAULT_SESSION_DURATION_HOURS * 3600)).token_counts =
        ⟨((e0 :: rest.map Prod.snd).map fun e => e.message.usage.input_tokens).sum,
         ((e0 :: rest.map Prod.snd).map fun e => e.message.usage.output_tokens).sum,
         ((e0 :: rest.map Prod.snd).map fun e =>
           e.message.usage.cache_creation_input_tokens.getD 0).sum,
         ((e0 :: rest.map Prod.snd).map fun e =>
           e.message.usage.cache_read_input_tokens.getD 0).sum⟩) := by
  constructor
  · intro h now
    rfl
  · intro entries h now t0 e0 rest hsort he0 hchain
    have hne : entries ≠ [] := by
      intro heq
      rw [heq] at hsort
      simp [sorted_pairs] at hsort
    refine ⟨?_, rfl, create_block_counts _ _ _ _⟩
    rw [identify_session_blocks, if_neg (by simp [hne])]
    simp only [hsort]
    rw [show identifyGo now (h.getD DEFAULT_SESSION_DURATION_HOURS * 3600)
        ((t0, e0) :: rest) none [] [] =
        identifyGo now (h.getD DEFAULT_SESSION_DURATION_HOURS * 3600)
          rest (some (floor_to_hour t0)) [e0] [] from rfl]
    rw [identifyGo_no_close now _ rest [e0] [] (floor_to_hour t0) t0 e0 rfl he0 hchain]
    simp

/-- Record at hour 0 with 1000 input and 500 output tokens. -/
def entry_c5_a : ClaudeUsageEntry :=
  { timestamp := some 0
    session_id := some "test-session"
    message := ⟨⟨1000, 500, some 0, some 0⟩, some "claude-sonnet", some "msg-a"⟩
    cost_usd := some (1 / 100)
    request_id := none
    cwd := none
    version := none
    is_api_error_message := some false }

/-- Record at hour 6 (21600 s) with 1000 input and 500 output tokens. -/
def entry_c5_b : ClaudeUsageEntry :=
  { entry_c5_a with timestamp := some 21600, message :=
      ⟨⟨1000, 500, some 0, some 0⟩, some "claude-sonnet", some "msg-b"⟩ }

/-- Witness for C5: records at hour 0 and hour 6 with a 5-hour duration
produce exactly [real, gap, real], the gap spanning [hour 5, hour 6). -/
theorem C5_gap_blocks_witness :
    identify_session_blocks [entry_c5_a, entry_c5_b] (some 5) 0 =
      [create_block 0 [entry_c5_a] 0 18000,
       gap_block_of 0 21600 18000,
       create_block 21600 [entry_c5_b] 0 18000] := by
  have hmain :=
    (C5_gap_blocks entry_c5_a entry_c5_b 0 21600 5 0 rfl rfl (by norm_num) (by norm_num)).2.1
  exact hmain

/-- Records at hours 0, 1, 2 with 1000 input and 500 output tokens each. -/
def entry_c6_a : ClaudeUsageEntry :=
  { entry_c5_a with message :=
      ⟨⟨1000, 500, some 0, some 0⟩, some "claude-3-5-sonnet", some "msg-1"⟩ }

def entry_c6_b : ClaudeUsageEntry :=
  { entry_c6_a with timestamp := some 3600 }

def entry_c6_c : ClaudeUsageEntry :=
  { entry_c6_a with timestamp := some 7200 }

/-- Witness for C6: three records at 0, 1 and 2 hours with a 5-hour duration
yield one block with input tokens 3000 and output tokens 1500. -/
theorem C6_single_block_witness :
    identify_session_blocks [entry_c6_a, entry_c6_b, entry_c6_c] (some 5) 0 =
      [create_block 0 [entry_c6_a, entry_c6_b, entry_c6_c] 0 18000] ∧
    (create_block 0 [entry_c6_a, entry_c6_b, entry_c6_c] 0 18000).token_counts.input_tokens =
      3000 ∧
    (create_block 0 [entry_c6_a, entry_c6_b, entry_c6_c] 0 18000).token_counts.output_tokens =
      1500 := by
  have hmain := (C6_single_block.2 [entry_c6_a, entry_c6_b, entry_c6_c] (some 5) 0 0
    entry_c6_a [(3600, entry_c6_b), (7200, entry_c6_c)] rfl rfl (by decide))
  exact ⟨hmain.1, by decide, by decide⟩

/-! ## Permutation invariance of block building (claim C10) -/

/-- Two key-sorted lists that are permutations of each other and whose keys
are pairwise distinct are equal. -/
lemma sorted_perm_nodup_keys_eq :
    ∀ (l1 l2 : List (Int × ClaudeUsageEntry)), l1.Perm l2 →
      l1.Sorted keyLe → l2.Sorted keyLe → (l1.map Prod.fst).Nodup → l1 = l2 := by
  intro l1
  induction l1 with
  | nil =>
    intro l2 hperm _ _ _
    exact hperm.nil_eq
  | cons a r1 ih =>
    intro l2 hperm hs1 hs2 hnd
    cases l2 with
    | nil =>
      have : a :: r1 = [] := hperm.eq_nil
      simp at this
    | cons b r2 =>
      by_cases hab : a = b
      · subst hab
        have htail : r1.Perm r2 := hperm.cons_inv
        have hnd' : (r1.map Prod.fst).Nodup := by
          simp only [List.map_cons, List.nodup_cons] at hnd
          exact hnd.2
        rw [ih r2 htail hs1.of_cons hs2.of_cons hnd']
      · have ha2 : a ∈ b :: r2 := hperm.subset (List.mem_cons_self a r1)
        have hb1 : b ∈ a :: r1 := hperm.symm.subset (List.mem_cons_self b r2)
        have hb1r : b ∈ r1 := by
          rcases List.mem_cons.mp hb1 with h | h
          · exact absurd h.symm hab
          · exact h
        have ha2r : a ∈ r2 := by
          rcases List.mem_cons.mp ha2 with h | h
          · exact absurd h hab
          · exact h
        have h1 : a.1 ≤ b.1 := List.rel_of_sorted_cons hs1 b hb1r
        have h2 : b.1 ≤ a.1 := List.rel_of_sorted_cons hs2 a ha2r
        have hkey : a.1 = b.1 := le_antisymm h1 h2
        have hmem : a.1 ∈ r1.map Prod.fst := by
          rw [hkey]
          exact List.mem_map_of_mem Prod.fst hb1r
        have hnotin : a.1 ∉ r1.map Prod.fst := by
          simp only [List.map_cons, List.nodup_cons] at hnd
          exact hnd.1
        exact absurd hmem hnotin

/-- Two entries sharing the timestamp 0 but differing in token counts. -/
def entry_c10_a : ClaudeUsageEntry :=
  { timestamp := some 0
    session_id := none
    message := ⟨⟨1, 0, none, none⟩, none, none⟩
    cost_usd := none
    request_id := none
    cwd := none
    version := none
    is_api_error_message := none }

def entry_c10_b : ClaudeUsageEntry :=
  { entry_c10_a with message := ⟨⟨2, 0, none, none⟩, none, none⟩ }

/-- An entry one hour after `entry_c10_a`. -/
def entry_c10_c : ClaudeUsageEntry :=
  { entry_c10_a with timestamp := some 3600 }

/-- C10 counterexample: with two distinct entries sharing one timestamp, the
stable sort preserves the input order of the tie, so swapping the input
produces blocks with differently ordered `entries` lists — the output is not
invariant under permutation. -/
theorem C10_counterexample :
    ([entry_c10_a, entry_c10_b].Perm [entry_c10_b, entry_c10_a]) ∧
    (identify_session_blocks [entry_c10_a, entry_c10_b] (some 5) 0).map SessionBlock.entries ≠
      (identify_session_blocks [entry_c10_b, entry_c10_a] (some 5) 0).map SessionBlock.entries :=
  ⟨List.Perm.swap entry_c10_b entry_c10_a [], by decide⟩

/-- C10 (amended): permutation invariance holds whenever the parseable
timestamps are pairwise distinct; the builder filters out unparseable
entries and stable-sorts by parsed timestamp, so with no ties the sorted
list — and hence the entire block sequence — depends only on the set of
parseable entries. -/
theorem C10_perm_invariance (l1 l2 : List ClaudeUsageEntry) (hperm : l1.Perm l2)
    (hnodup : ((l1.filterMap (fun e => e.date.map (fun d => (d, e)))).map Prod.fst).Nodup)
    (hrs : Option Int) (now : Int) :
    identify_session_blocks l1 hrs now = identify_session_blocks l2 hrs now := by
  have hpairs : (l1.filterMap (fun e => e.date.map (fun d => (d, e)))).Perm
      (l2.filterMap (fun e => e.date.map (fun d => (d, e)))) := hperm.filterMap _
  have hs1 : (sorted_pairs l1).Sorted keyLe := List.sorted_insertionSort keyLe _
  have hs2 : (sorted_pairs l2).Sorted keyLe := List.sorted_insertionSort keyLe _
  have hsp : (sorted_pairs l1).Perm (sorted_pairs l2) :=
    (List.perm_insertionSort keyLe _).trans
      (hpairs.trans (List.perm_insertionSort keyLe _).symm)
  have hnd1 : ((sorted_pairs l1).map Prod.fst).Nodup := by
    have hmp : ((sorted_pairs l1).map Prod.fst).Perm
        ((l1.filterMap (fun e => e.date.map (fun d => (d, e)))).map Prod.fst) :=
      (List.perm_insertionSort keyLe _).map _
    exact hmp.nodup_iff.mpr hnodup
  have heq : sorted_pairs l1 = sorted_pairs l2 :=
    sorted_perm_nodup_keys_eq _ _ hsp hs1 hs2 hnd1
  have hiff : l1.isEmpty = l2.isEmpty := by
    cases l1 with
    | nil =>
      have h2 : l2 = [] := hperm.nil_eq.symm
      rw [h2]
    | cons a r =>
      cases l2 with
      | nil =>
        have h2 : a :: r = [] := hperm.eq_nil
        simp at h2
      | cons b s => rfl
  unfold identify_session_blocks
  rw [heq, hiff]

/-- Witness for C10 (amended): swapping two distinct-timestamp entries does
not change the output. -/
theorem C10_perm_invariance_witness :
    identify_session_blocks [entry_c10_a, entry_c10_c] (some 5) 0 =
      identify_session_blocks [entry_c10_c, entry_c10_a] (some 5) 0 :=
  C10_perm_invariance _ _ (List.Perm.swap entry_c10_c entry_c10_a []) (by decide) (some 5) 0

/-! ## Burn-rate tracker (`src/data/collector.rs`, claim C7) -/

/-- `TokenSnapshot` from `app/state.rs` (timestamp in epoch seconds). -/
structure TokenSnapshot where
  timestamp : Int
  total_tokens : Nat
deriving DecidableEq, Repr

/-- The burn-rate state mutated in place by
`DataCollector::calculate_burn_rate`. -/
structure BurnRateState where
  tokens_per_minute : ℚ
  ema_tokens_per_minute : ℚ
  cost_per_minute : ℚ
  last_update : Int
  last_total_tokens : Nat
  snapshots : List TokenSnapshot
deriving DecidableEq, Repr

/-- `EMA_ALPHA` from `calculate_burn_rate`. -/
def EMA_ALPHA : ℚ := 3 / 10

/-- `DataCollector::calculate_burn_rate` (`collector.rs` lines 170-217) as a
pure state transformer: `total_tokens` is the sum over all sessions, `now`
is the current time in epoch seconds, `cost_per_1k` is
`config.cost_per_1k_tokens`.  The Rust `while` loop popping the snapshot
queue down to 10 elements equals dropping the excess from the front. -/
def calculate_burn_rate (br : BurnRateState) (total_tokens : Nat) (now : Int)
    (cost_per_1k : ℚ) : BurnRateState :=
  let minutes_elapsed : ℚ := ((now - br.last_update : Int) : ℚ) / 60
  let instant_rate : ℚ :=
    if minutes_elapsed > 0 ∧ br.last_total_tokens > 0 then
      max (((total_tokens : ℚ) - (br.last_total_tokens : ℚ)) / minutes_elapsed) 0
    else 0
  let ema :=
    if br.last_total_tokens = 0 then instant_rate
    else EMA_ALPHA * instant_rate + (1 - EMA_ALPHA) * br.ema_tokens_per_minute
  let snaps := br.snapshots ++ [⟨now, total_tokens⟩]
  { tokens_per_minute := ema
    ema_tokens_per_minute := ema
    cost_per_minute := ema / 1000 * cost_per_1k
    last_update := now
    last_total_tokens := total_tokens
    snapshots := snaps.drop (snaps.length - 10) }

/-- For a positive denominator, flooring the quotient at zero equals
dividing the floored numerator. -/
lemma max_div_zero (a m : ℚ) (hm : 0 < m) : max (a / m) 0 = max 0 a / m := by
  rcases le_total a 0 with h | h
  · have hq : a / m ≤ 0 := div_nonpos_iff.mpr (Or.inr ⟨h, hm.le⟩)
    rw [max_eq_right hq, max_eq_left h, zero_div]
  · have hq : 0 ≤ a / m := div_nonneg h hm.le
    rw [max_eq_left hq, max_eq_right h]

/-- C7: on a refresh tick with positive elapsed minutes, the instant rate is
`max(0, total_now − last_total) / minutes_elapsed` (never negative); with a
prior total the EMA is updated as `0.3·instant + 0.7·ema_prev`; with no
prior total (the zero sentinel) the instant rate — which is 0, having no
delta — seeds the EMA directly; the published `tokens_per_minute` is the
EMA and `cost_per_minute = ema / 1000 × cost_per_1k`. -/
theorem C7_burn_rate (br : BurnRateState) (total_tokens : Nat) (now : Int) (cost_per_1k : ℚ)
    (hmin : 0 < ((now - br.last_update : Int) : ℚ) / 60) :
    (0 < br.last_total_tokens →
      (calculate_burn_rate br total_tokens now cost_per_1k).ema_tokens_per_minute =
        EMA_ALPHA * (max 0 ((total_tokens : ℚ) - (br.last_total_tokens : ℚ)) /
            (((now - br.last_update : Int) : ℚ) / 60)) +
          (1 - EMA_ALPHA) * br.ema_tokens_per_minute) ∧
    (br.last_total_tokens = 0 →
      (calculate_burn_rate br total_tokens now cost_per_1k).ema_tokens_per_minute = 0) ∧
    (0 ≤ max (((total_tokens : ℚ) - (br.last_total_tokens : ℚ)) /
        (((now - br.last_update : Int) : ℚ) / 60)) 0) ∧
    (calculate_burn_rate br total_tokens now cost_per_1k).tokens_per_minute =
      (calculate_burn_rate br total_tokens now cost_per_1k).ema_tokens_per_minute ∧
    (calculate_burn_rate br total_tokens now cost_per_1k).cost_per_minute =
      (calculate_burn_rate br total_tokens now cost_per_1k).ema_tokens_per_minute / 1000 *
        cost_per_1k := by
  refine ⟨?_, ?_, le_max_right _ _, rfl, rfl⟩
  · intro hpos
    simp only [calculate_burn_rate]
    rw [if_neg (Nat.pos_iff_ne_zero.mp hpos), if_pos ⟨hmin, hpos⟩,
      max_div_zero _ _ hmin]
  · intro h0
    simp only [calculate_burn_rate]
    rw [if_pos h0, if_neg (by simp [h0])]

/-- Burn-rate state with a prior total of 1000 tokens and EMA 10. -/
def br_c7 : BurnRateState :=
  { tokens_per_minute := 10
    ema_tokens_per_minute := 10
    cost_per_minute := 0
    last_update := 0
    last_total_tokens := 1000
    snapshots := [] }

/-- Witness for C7: one minute later at 4000 total tokens the instant rate
is 3000 tokens/minute and the EMA becomes 0.3·3000 + 0.7·10 = 907. -/
theorem C7_burn_rate_witness :
    (calculate_burn_rate br_c7 4000 60 (1 / 100)).ema_tokens_per_minute = 907 ∧
    (calculate_burn_rate br_c7 4000 60 (1 / 100)).cost_per_minute =
      907 / 1000 * (1 / 100) := by
  have h := C7_burn_rate br_c7 4000 60 (1 / 100) (by norm_num [br_c7])
  have h1 := h.1 (by norm_num [br_c7])
  have hval : EMA_ALPHA * (max 0 ((4000 : ℚ) - ((br_c7.last_total_tokens : ℕ) : ℚ)) /
      ((((60 : ℤ) - br_c7.last_update : ℤ) : ℚ) / 60)) +
      (1 - EMA_ALPHA) * br_c7.ema_tokens_per_minute = 907 := by
    norm_num [br_c7, EMA_ALPHA]
  refine ⟨h1.trans hval, ?_⟩
  rw [h.2.2.2.2, h1.trans hval]

/-! ## Collector-loop connectivity flag (`src/data/collector.rs`, claim C9) -/

/-- Result of `self.database.has_changed().await` in one iteration of the
polling loop in `DataCollector::run`. -/
inductive CheckOutcome where
  | changed
  | unchanged
  | failed
deriving DecidableEq, Repr

/-- The effect of one iteration of the polling loop in `DataCollector::run`
(`collector.rs` lines 47-65) on the `is_connected` flag: on `Ok(true)` the
loop calls `collect_data`, whose first statement sets the flag to `true`
(before any fallible call, so even a failing refresh leaves it `true`); on
`Ok(false)` the loop skips collection and the flag is left untouched; on
`Err` the loop sets the flag to `false`. -/
def run_tick_connected (is_connected : Bool) (check : CheckOutcome) : Bool :=
  match check with
  | .changed => true
  | .unchanged => is_connected
  | .failed => false

/-- C9 counterexample: a successful change check that reports "no change"
does not set the connectivity flag to true — starting from a disconnected
state, the flag stays false even though the check succeeded. -/
theorem C9_counterexample :
    run_tick_connected false CheckOutcome.unchanged = false ∧
    CheckOutcome.unchanged ≠ CheckOutcome.failed :=
  ⟨rfl, by decide⟩

/-- C9 (amended): on every iteration the flag is set to false when the
change check fails, set to true when the check reports changes (the refresh
begins by setting it), and left unchanged when the check succeeds reporting
no change. -/
theorem C9_connectivity_flag (is_connected : Bool) :
    run_tick_connected is_connected CheckOutcome.failed = false ∧
    run_tick_connected is_connected CheckOutcome.changed = true ∧
    run_tick_connected is_connected CheckOutcome.unchanged = is_connected :=
  ⟨rfl, rfl, rfl⟩

end QStatus
